import Mathlib

/-!
Verification of the haworks `localtovm.py` upload tool: a shallow embedding
of its byte classifier, line-ending normalizer, connection retry logic and
recursive upload engine, with theorems checking the specification's claims.

File contents are modelled as `List Nat` (byte values 0..255); decoded text
is modelled as `List Nat` (Unicode code points).  File reads that may fail
are modelled as `Option (List Nat)` (`none` = the read raised).
-/

namespace LocalToVm

/-- The fixed extension allow-list from `connection_cache['text_extensions']`
(lines 21-23 of `localtovm.py`). -/
def text_extensions : List String :=
  [".txt", ".sh", ".py", ".pl", ".conf", ".cfg", ".ini", ".log",
   ".xml", ".json", ".yaml", ".yml", ".properties", ".sql", ".js",
   ".css", ".html", ".htm", ".md", ".csv", ".tsv", ".bat", ".ps1"]

/-- ASCII lowercasing of one character, the behaviour of Python's
`str.lower()` on the ASCII range (all allow-list extensions are ASCII). -/
def lowerChar (c : Char) : Char :=
  if 65 ≤ c.toNat ∧ c.toNat ≤ 90 then Char.ofNat (c.toNat + 32) else c

/-- `suffix.lower()` for ASCII suffixes. -/
def lowerStr (s : String) : String := String.mk (s.data.map lowerChar)

/-- `is_text_file` (lines 26-28): the lowercased suffix must be in the
allow-list.  The argument is the file's suffix (including the dot). -/
def is_text_file (suffix : String) : Bool :=
  text_extensions.contains (lowerStr suffix)

/-- `is_binary_file` (lines 30-37): read the first 1024 bytes and test for a
NUL byte; any exception while reading yields `False`.  `sniffRead` is the
result of the read (`none` = the `open`/`read` raised). -/
def is_binary_file (sniffRead : Option (List Nat)) : Bool :=
  match sniffRead with
  | none => false
  | some chunk => (chunk.take 1024).contains 0

/-- Python `str.replace('\r\n', '\n')` on a sequence of code points (or,
applied to bytes, the byte-level CRLF-to-LF rewrite): left-to-right,
non-overlapping. -/
def replaceCRLF : List Nat → List Nat
  | [] => []
  | [b] => [b]
  | b :: c :: rest =>
    if b = 13 ∧ c = 10 then 10 :: replaceCRLF rest
    else b :: replaceCRLF (c :: rest)

/-- UTF-8 encoding of one code point, as `str.encode('utf-8')` produces for
a character with that value. -/
def utf8EncodeChar (c : Nat) : List Nat :=
  if c < 0x80 then [c]
  else if c < 0x800 then [0xC0 + c / 0x40, 0x80 + c % 0x40]
  else if c < 0x10000 then
    [0xE0 + c / 0x1000, 0x80 + c / 0x40 % 0x40, 0x80 + c % 0x40]
  else
    [0xF0 + c / 0x40000, 0x80 + c / 0x1000 % 0x40, 0x80 + c / 0x40 % 0x40,
     0x80 + c % 0x40]

/-- UTF-8 encoding of a code-point sequence. -/
def utf8Encode : List Nat → List Nat
  | [] => []
  | c :: rest => utf8EncodeChar c ++ utf8Encode rest

/-- One step of strict UTF-8 decoding as `bytes.decode('utf-8')` performs
it: given the lead byte `b` and the remaining bytes, produce the decoded
code point and the bytes after its sequence, or `none` on a malformed
sequence (stray continuation byte, overlong form, surrogate, code point
beyond U+10FFFF, or truncated sequence). -/
def utf8DecodeOne (b : Nat) (rest : List Nat) : Option (Nat × List Nat) :=
  if b < 0x80 then some (b, rest)
  else if b < 0xC2 then none
  else if b < 0xE0 then
    match rest with
    | b1 :: rest1 =>
      if 0x80 ≤ b1 ∧ b1 < 0xC0 then
        some ((b - 0xC0) * 0x40 + (b1 - 0x80), rest1)
      else none
    | [] => none
  else if b < 0xF0 then
    match rest with
    | b1 :: b2 :: rest2 =>
      if (0x80 ≤ b1 ∧ b1 < 0xC0) ∧ (0x80 ≤ b2 ∧ b2 < 0xC0) then
        if (b - 0xE0) * 0x1000 + (b1 - 0x80) * 0x40 + (b2 - 0x80) < 0x800 ∨
           (0xD800 ≤ (b - 0xE0) * 0x1000 + (b1 - 0x80) * 0x40 + (b2 - 0x80) ∧
            (b - 0xE0) * 0x1000 + (b1 - 0x80) * 0x40 + (b2 - 0x80) < 0xE000) then none
        else some ((b - 0xE0) * 0x1000 + (b1 - 0x80) * 0x40 + (b2 - 0x80), rest2)
      else none
    | _ => none
  else if b < 0xF5 then
    match rest with
    | b1 :: b2 :: b3 :: rest3 =>
      if (0x80 ≤ b1 ∧ b1 < 0xC0) ∧ (0x80 ≤ b2 ∧ b2 < 0xC0) ∧ (0x80 ≤ b3 ∧ b3 < 0xC0) then
        if (b - 0xF0) * 0x40000 + (b1 - 0x80) * 0x1000 + (b2 - 0x80) * 0x40 + (b3 - 0x80)
             < 0x10000 ∨
           0x110000 ≤ (b - 0xF0) * 0x40000 + (b1 - 0x80) * 0x1000 + (b2 - 0x80) * 0x40 +
             (b3 - 0x80) then none
        else some ((b - 0xF0) * 0x40000 + (b1 - 0x80) * 0x1000 + (b2 - 0x80) * 0x40 +
                   (b3 - 0x80), rest3)
      else none
    | _ => none
  else none

/-- Decoding loop: peel code points until the input is exhausted.  `fuel`
bounds the number of code points; each sequence consumes at least one byte,
so `fuel = l.length` always suffices (see `utf8Decode`). -/
def utf8DecodeLoop : Nat → List Nat → Option (List Nat)
  | _, [] => some []
  | 0, _ :: _ => none
  | fuel + 1, b :: rest =>
    match utf8DecodeOne b rest with
    | none => none
    | some (cp, rest1) => (utf8DecodeLoop fuel rest1).map (fun cps => cp :: cps)

/-- Strict UTF-8 decoding of a whole byte string, as `bytes.decode('utf-8')`;
`none` models `UnicodeDecodeError`. -/
def utf8Decode (l : List Nat) : Option (List Nat) := utf8DecodeLoop l.length l

/-- `bytes.decode('latin-1')`: total — every byte value 0..255 is the code
point of the same value, so the `UnicodeDecodeError` handler guarding the
fallback (lines 51-53) is unreachable. -/
def latin1Decode (content : List Nat) : List Nat := content

/-- `convert_dos2unix_stream` (lines 39-70).  `read` is the result of
reading the whole file (`none` = the `open`/`read` raised, caught by the
outer handler at line 68, which returns `None`).  On a successful read the
content is decoded as UTF-8, falling back to latin-1, CRLF pairs are
replaced by LF on the decoded text, and the result is re-encoded as UTF-8. -/
def convert_dos2unix_stream (read : Option (List Nat)) : Option (List Nat) :=
  match read with
  | none => none
  | some content =>
    match utf8Decode content with
    | some text => some (utf8Encode (replaceCRLF text))
    | none => some (utf8Encode (replaceCRLF (latin1Decode content)))

/-- `should_convert` (line 367): `is_text_file(item) and not is_binary_file(item)`. -/
def should_convert (suffix : String) (sniffRead : Option (List Nat)) : Bool :=
  is_text_file suffix && !(is_binary_file sniffRead)

/-- The per-file branch of `upload_recursive` (lines 364-386): returns
`some (payload, converted?)` when an upload happens (so `uploaded_count` is
incremented, and `converted_count` iff the flag is set), and `none` when
the entry fails.  `sniffRead`, `convRead` and `putRead` are the results of
the three independent opens of the file: the binary sniff, the read inside
`convert_dos2unix_stream`, and the read performed by `sftp.put`. -/
def processFile (suffix : String) (sniffRead convRead putRead : Option (List Nat)) :
    Option (List Nat × Bool) :=
  if should_convert suffix sniffRead then
    match convert_dos2unix_stream convRead with
    | some payload => some (payload, true)
    | none =>
      match putRead with
      | some content => some (content, false)
      | none => none
  else
    match putRead with
    | some content => some (content, false)
    | none => none

/-! ### Remote mkdir error handling -/

/-- `needle.data` is a contiguous run of `hay.data` — Python's
`needle in hay` on strings. -/
def listPrefixOf : List Char → List Char → Bool
  | [], _ => true
  | _ :: _, [] => false
  | a :: as, b :: bs => (a == b) && listPrefixOf as bs

/-- `needle` occurs starting at some position of the second list. -/
def listInfixOf (needle : List Char) : List Char → Bool
  | [] => needle.isEmpty
  | l@(_ :: t) => listPrefixOf needle l || listInfixOf needle t

/-- Substring test used by the mkdir handlers: `"File exists" in str(e)`. -/
def strContains (needle hay : String) : Bool :=
  listInfixOf needle.data hay.data

/-- `sftp.mkdir` outcome handling shared by `perform_upload` (lines 343-351)
and the subdirectory case of `upload_recursive` (lines 390-396): `err` is
`none` when `mkdir` succeeded, `some msg` when it raised with message `msg`;
the operation is treated as a success exactly when it did not raise or the
message contains `"File exists"`. -/
def mkdir_treated_ok (err : Option String) : Bool :=
  match err with
  | none => true
  | some e => strContains "File exists" e

/-! ### Recursive upload engine -/

/-- The counts returned by `upload_recursive`
(`uploaded_count, failed_count, converted_count`). -/
structure UploadResult where
  uploaded : Nat
  failed : Nat
  converted : Nat
deriving DecidableEq

/-- Folding a child result into the parent (lines 398-401). -/
def UploadResult.add (a b : UploadResult) : UploadResult :=
  ⟨a.uploaded + b.uploaded, a.failed + b.failed, a.converted + b.converted⟩

/-- A local directory entry together with the outcomes of the operations
performed on it by `upload_recursive`:
* `file suffix sniffRead convRead putRead transferOk` — a regular file with
  the given suffix; the three `Option (List Nat)` are the results of the
  binary-sniff read, the normalizer's read and the `sftp.put` read of its
  bytes; `transferOk` is whether the network transfer itself succeeded.
* `dir mkdirErr iterOk children` — a subdirectory; `mkdirErr` is the
  `sftp.mkdir` outcome, `iterOk` is whether iterating the directory's own
  entries succeeded (`iterdir`), and `children` are its entries. -/
inductive Entry where
  | file : String → Option (List Nat) → Option (List Nat) → Option (List Nat) → Bool → Entry
  | dir : Option String → Bool → List Entry → Entry

mutual

/-- Counts contributed by one entry of `upload_recursive` (lines 358-411):
a file increments `uploaded` (and `converted` when a normalized payload was
uploaded) or `failed`; a directory whose `mkdir` failed without
`"File exists"` increments `failed` and is not recursed into; a directory
whose iteration raises increments `failed`; otherwise children are summed. -/
def uploadEntry : Entry → UploadResult
  | .file suffix sniffRead convRead putRead transferOk =>
    match processFile suffix sniffRead convRead putRead with
    | some (_, conv) =>
      if transferOk then ⟨1, 0, if conv then 1 else 0⟩ else ⟨0, 1, 0⟩
    | none => ⟨0, 1, 0⟩
  | .dir mkdirErr iterOk children =>
    if mkdir_treated_ok mkdirErr then
      if iterOk then uploadList children else ⟨0, 1, 0⟩
    else ⟨0, 1, 0⟩

/-- Counts for a sibling list, summed left to right. -/
def uploadList : List Entry → UploadResult
  | [] => ⟨0, 0, 0⟩
  | e :: es => (uploadEntry e).add (uploadList es)

end

mutual

/-- Number of file entries in the tree under (and including) an entry. -/
def totalFiles : Entry → Nat
  | .file _ _ _ _ _ => 1
  | .dir _ _ children => totalFilesList children

def totalFilesList : List Entry → Nat
  | [] => 0
  | e :: es => totalFiles e + totalFilesList es

end

mutual

/-- Every directory-level operation in the tree succeeds: each `mkdir` is
treated as a success and each directory iteration succeeds (files may still
fail). -/
def dirsClean : Entry → Bool
  | .file _ _ _ _ _ => true
  | .dir mkdirErr iterOk children =>
    mkdir_treated_ok mkdirErr && iterOk && dirsCleanList children

def dirsCleanList : List Entry → Bool
  | [] => true
  | e :: es => dirsClean e && dirsCleanList es

end

mutual

/-- Every operation in the tree succeeds: directories as in `dirsClean`,
and every file both produces a payload and transfers. -/
def allOk : Entry → Bool
  | .file suffix sniffRead convRead putRead transferOk =>
    (processFile suffix sniffRead convRead putRead).isSome && transferOk
  | .dir mkdirErr iterOk children =>
    mkdir_treated_ok mkdirErr && iterOk && allOkList children

def allOkList : List Entry → Bool
  | [] => true
  | e :: es => allOk e && allOkList es

end

mutual

/-- The same tree on a second run after a fully successful upload: every
remote directory now exists, so each `sftp.mkdir` raises with a
`"File exists"` message; file reads and transfers behave as before. -/
def rerunEntry : Entry → Entry
  | .file suffix sniffRead convRead putRead transferOk =>
    .file suffix sniffRead convRead putRead transferOk
  | .dir _ iterOk children => .dir (some "File exists") iterOk (rerunList children)

def rerunList : List Entry → List Entry
  | [] => []
  | e :: es => rerunEntry e :: rerunList es

end

/-! ### Connection establishment (`safe_connect`, lines 92-164) -/

/-- Outcome of one fallible step (or of a whole connect attempt):
`paramiko.AuthenticationException`, some other exception, or success. -/
inductive StepOutcome where
  | ok
  | authFail
  | transFail
deriving DecidableEq

/-- The cached passwords (`connection_cache['jump_password']` /
`['target_password']`); `none` = not cached, prompt on next attempt. -/
structure CredCache where
  jump_password : Option String
  target_password : Option String
deriving DecidableEq

/-- Lines 98-110: any password not in the cache is prompted for and
stored before the connection steps run. -/
def fillPasswords (c : CredCache) (jumpPrompt targetPrompt : String) : CredCache :=
  ⟨some (c.jump_password.getD jumpPrompt), some (c.target_password.getD targetPrompt)⟩

/-- Classification of one whole connect attempt from its step outcomes:
the jump `connect`, the `open_channel` call, the target `connect` and
`open_sftp` run in order; the first failure determines the exception that
reaches the `except` handlers (channel and sftp failures are not
`AuthenticationException`). -/
def attemptResult (jump : StepOutcome) (chanOk : Bool) (target : StepOutcome)
    (sftpOk : Bool) : StepOutcome :=
  match jump with
  | .authFail => .authFail
  | .transFail => .transFail
  | .ok =>
    if chanOk then
      match target with
      | .authFail => .authFail
      | .transFail => .transFail
      | .ok => if sftpOk then .ok else .transFail
    else .transFail

/-- Effect of one iteration of the `safe_connect` retry loop on the
credential cache: passwords are filled in (lines 98-110); on
`AuthenticationException` BOTH cached passwords are set to `None`
(lines 144-148); on any other exception the cache is left as filled
(lines 158-163). -/
def safe_connect_step (c : CredCache) (jumpPrompt targetPrompt : String)
    (r : StepOutcome) : CredCache :=
  match r with
  | .ok => fillPasswords c jumpPrompt targetPrompt
  | .authFail => ⟨none, none⟩
  | .transFail => fillPasswords c jumpPrompt targetPrompt

/-- Seconds slept before the next retry, per failure kind: line 151
(`AuthenticationException` handler) and line 162 (generic handler) both
call `time.sleep(2)`; on success there is no sleep. -/
def retryDelay (r : StepOutcome) : Option Nat :=
  match r with
  | .ok => none
  | .authFail => some 2
  | .transFail => some 2

/-- The four per-attempt resources, in the order they are opened. -/
inductive Handle where
  | jump_ssh
  | channel
  | target_ssh
  | sftp
deriving DecidableEq

/-- The step of a connect attempt at which the first failure occurred. -/
inductive ConnectStage where
  | jumpConnect
  | openChannel
  | targetConnect
  | openSftp
deriving DecidableEq

/-- Handles already opened when a given step fails (lines 113-132). -/
def openedBefore : ConnectStage → List Handle
  | .jumpConnect => []
  | .openChannel => [.jump_ssh]
  | .targetConnect => [.jump_ssh, .channel]
  | .openSftp => [.jump_ssh, .channel, .target_ssh]

/-- Handles closed by the `except` handlers of a failed attempt
(lines 144-163): the handlers print, clear passwords, sleep and `continue`;
no handle opened earlier in the attempt is closed. -/
def closedOnFailure (_ : ConnectStage) : List Handle := []

/-- The session-handle part of `connection_cache`
(`jump_ssh`/`target_ssh`/`sftp`/`connected`); `true` = handle present. -/
structure SessionCache where
  jump_ssh : Bool
  target_ssh : Bool
  sftp : Bool
  connected : Bool
deriving DecidableEq

/-- Effect of one connect attempt on the session cache: on success all
handles are stored together with `connected = True` (lines 135-140); on a
failure at any stage the cache is not written at all. -/
def cacheAfterAttempt (c : SessionCache) (failAt : Option ConnectStage) : SessionCache :=
  match failAt with
  | none => ⟨true, true, true, true⟩
  | some _ => c

/-- `safe_disconnect` (lines 166-191): best-effort closes, then all handle
fields and `connected` reset together. -/
def safe_disconnect (_ : SessionCache) : SessionCache := ⟨false, false, false, false⟩

/-- The cache invariant: the three handles are present exactly when
`connected` is set — all together or none. -/
def allOrNone (c : SessionCache) : Bool :=
  (c.jump_ssh == c.connected) && (c.target_ssh == c.connected) && (c.sftp == c.connected)

end LocalToVm

/-! ## Helper lemmas -/

namespace LocalToVm

/-- A successful single-code-point decode is inverted by `utf8EncodeChar`. -/
theorem utf8DecodeOne_encode (b : Nat) (rest : List Nat) (cp : Nat) (rest1 : List Nat)
    (h : utf8DecodeOne b rest = some (cp, rest1)) :
    utf8EncodeChar cp ++ rest1 = b :: rest := by
  unfold utf8DecodeOne at h
  split_ifs at h with h1 h2 h3 h4
  · simp only [Option.some.injEq, Prod.mk.injEq] at h
    obtain ⟨rfl, rfl⟩ := h
    simp [utf8EncodeChar, h1]
  · split at h
    · rename_i b1 r1
      split_ifs at h with hc
      · simp only [Option.some.injEq, Prod.mk.injEq] at h
        obtain ⟨rfl, rfl⟩ := h
        have e0 : ¬ ((b - 0xC0) * 0x40 + (b1 - 0x80) < 0x80) := by omega
        have e1 : (b - 0xC0) * 0x40 + (b1 - 0x80) < 0x800 := by omega
        have e2 : 0xC0 + ((b - 0xC0) * 0x40 + (b1 - 0x80)) / 0x40 = b := by omega
        have e3 : 0x80 + ((b - 0xC0) * 0x40 + (b1 - 0x80)) % 0x40 = b1 := by omega
        simp [utf8EncodeChar, e0, e1, e2, e3]
    · simp at h
  · split at h
    · rename_i b1 b2 r2
      split_ifs at h with hc hcp
      · simp only [Option.some.injEq, Prod.mk.injEq] at h
        obtain ⟨rfl, rfl⟩ := h
        have e0 : ¬ ((b - 0xE0) * 0x1000 + (b1 - 0x80) * 0x40 + (b2 - 0x80) < 0x80) := by omega
        have e1 : ¬ ((b - 0xE0) * 0x1000 + (b1 - 0x80) * 0x40 + (b2 - 0x80) < 0x800) := by omega
        have e2 : (b - 0xE0) * 0x1000 + (b1 - 0x80) * 0x40 + (b2 - 0x80) < 0x10000 := by omega
        have e3 : 0xE0 + ((b - 0xE0) * 0x1000 + (b1 - 0x80) * 0x40 + (b2 - 0x80)) / 0x1000 = b := by
          omega
        have e4 : 0x80 + ((b - 0xE0) * 0x1000 + (b1 - 0x80) * 0x40 + (b2 - 0x80)) / 0x40 % 0x40 = b1 := by
          omega
        have e5 : 0x80 + ((b - 0xE0) * 0x1000 + (b1 - 0x80) * 0x40 + (b2 - 0x80)) % 0x40 = b2 := by
          omega
        simp [utf8EncodeChar, e0, e1, e2, e3, e4, e5]
    · simp at h
  · split at h
    · rename_i b1 b2 b3 r3
      split_ifs at h with hc hcp
      · simp only [Option.some.injEq, Prod.mk.injEq] at h
        obtain ⟨rfl, rfl⟩ := h
        have e0 : ¬ ((b - 0xF0) * 0x40000 + (b1 - 0x80) * 0x1000 + (b2 - 0x80) * 0x40 + (b3 - 0x80) < 0x80) := by
          omega
        have e1 : ¬ ((b - 0xF0) * 0x40000 + (b1 - 0x80) * 0x1000 + (b2 - 0x80) * 0x40 + (b3 - 0x80) < 0x800) := by
          omega
        have e2 : ¬ ((b - 0xF0) * 0x40000 + (b1 - 0x80) * 0x1000 + (b2 - 0x80) * 0x40 + (b3 - 0x80) < 0x10000) := by
          omega
        have e3 : 0xF0 + ((b - 0xF0) * 0x40000 + (b1 - 0x80) * 0x1000 + (b2 - 0x80) * 0x40 + (b3 - 0x80)) / 0x40000 = b := by
          omega
        have e4 : 0x80 + ((b - 0xF0) * 0x40000 + (b1 - 0x80) * 0x1000 + (b2 - 0x80) * 0x40 + (b3 - 0x80)) / 0x1000 % 0x40 = b1 := by
          omega
        have e5 : 0x80 + ((b - 0xF0) * 0x40000 + (b1 - 0x80) * 0x1000 + (b2 - 0x80) * 0x40 + (b3 - 0x80)) / 0x40 % 0x40 = b2 := by
          omega
        have e6 : 0x80 + ((b - 0xF0) * 0x40000 + (b1 - 0x80) * 0x1000 + (b2 - 0x80) * 0x40 + (b3 - 0x80)) % 0x40 = b3 := by
          omega
        simp [utf8EncodeChar, e0, e1, e2, e3, e4, e5, e6]
    · simp at h

/-- A successful run of the decoding loop is inverted by `utf8Encode`. -/
theorem utf8DecodeLoop_encode : ∀ (fuel : Nat) (l cps : List Nat),
    utf8DecodeLoop fuel l = some cps → utf8Encode cps = l := by
  intro fuel
  induction fuel with
  | zero =>
    intro l cps h
    cases l with
    | nil =>
      simp only [utf8DecodeLoop, Option.some.injEq] at h
      subst h
      simp [utf8Encode]
    | cons b rest => simp [utf8DecodeLoop] at h
  | succ fuel ih =>
    intro l cps h
    cases l with
    | nil =>
      simp only [utf8DecodeLoop, Option.some.injEq] at h
      subst h
      simp [utf8Encode]
    | cons b rest =>
      rw [utf8DecodeLoop] at h
      cases hone : utf8DecodeOne b rest with
      | none => rw [hone] at h; simp at h
      | some pr =>
        obtain ⟨cp, rest1⟩ := pr
        rw [hone] at h
        simp only [Option.map_eq_some'] at h
        obtain ⟨cps', hloop, rfl⟩ := h
        calc utf8Encode (cp :: cps') = utf8EncodeChar cp ++ utf8Encode cps' := by
              simp [utf8Encode]
          _ = utf8EncodeChar cp ++ rest1 := by rw [ih rest1 cps' hloop]
          _ = b :: rest := utf8DecodeOne_encode b rest cp rest1 hone

/-- Strict UTF-8 decoding is inverted by `utf8Encode`: a decodable byte
string is recovered exactly by re-encoding its code points. -/
theorem utf8Decode_encode (l cps : List Nat) (h : utf8Decode l = some cps) :
    utf8Encode cps = l :=
  utf8DecodeLoop_encode l.length l cps h

/-- `replaceCRLF` passes over any element that is not a CR. -/
theorem replaceCRLF_cons (b : Nat) (l : List Nat) (hb : b ≠ 13) :
    replaceCRLF (b :: l) = b :: replaceCRLF l := by
  cases l with
  | nil => rfl
  | cons c t =>
    rw [replaceCRLF, if_neg (fun hx => hb hx.1)]

/-- `replaceCRLF` passes over a CR not followed by LF. -/
theorem replaceCRLF_cons13 (c : Nat) (t : List Nat) (hc : c ≠ 10) :
    replaceCRLF (13 :: c :: t) = 13 :: replaceCRLF (c :: t) := by
  rw [replaceCRLF, if_neg (fun hx => hc hx.2)]

/-- The UTF-8 encoding of a non-CR code point contains no CR byte, so
`replaceCRLF` passes over it. -/
theorem replaceCRLF_encodeChar (c : Nat) (hc : c ≠ 13) (l : List Nat) :
    replaceCRLF (utf8EncodeChar c ++ l) = utf8EncodeChar c ++ replaceCRLF l := by
  unfold utf8EncodeChar
  split_ifs with h1 h2 h3
  · simpa using replaceCRLF_cons c l hc
  · simp only [List.cons_append, List.nil_append]
    rw [replaceCRLF_cons _ _ (by omega), replaceCRLF_cons _ _ (by omega)]
  · simp only [List.cons_append, List.nil_append]
    rw [replaceCRLF_cons _ _ (by omega), replaceCRLF_cons _ _ (by omega),
        replaceCRLF_cons _ _ (by omega)]
  · simp only [List.cons_append, List.nil_append]
    rw [replaceCRLF_cons _ _ (by omega), replaceCRLF_cons _ _ (by omega),
        replaceCRLF_cons _ _ (by omega), replaceCRLF_cons _ _ (by omega)]

/-- A CR before the UTF-8 encoding of a non-LF code point is not part of a
CRLF pair. -/
theorem replaceCRLF_13_encodeChar (c : Nat) (hc : c ≠ 10) (l : List Nat) :
    replaceCRLF (13 :: (utf8EncodeChar c ++ l)) = 13 :: replaceCRLF (utf8EncodeChar c ++ l) := by
  unfold utf8EncodeChar
  split_ifs with h1 h2 h3
  · simpa using replaceCRLF_cons13 c l hc
  · simp only [List.cons_append, List.nil_append]
    exact replaceCRLF_cons13 _ _ (by omega)
  · simp only [List.cons_append, List.nil_append]
    exact replaceCRLF_cons13 _ _ (by omega)
  · simp only [List.cons_append, List.nil_append]
    exact replaceCRLF_cons13 _ _ (by omega)

/-- CRLF replacement commutes with UTF-8 encoding: CR and LF encode as the
single bytes 13 and 10, and no other code point's encoding contains them. -/
theorem utf8Encode_replaceCRLF (cps : List Nat) :
    utf8Encode (replaceCRLF cps) = replaceCRLF (utf8Encode cps) := by
  induction cps using replaceCRLF.induct with
  | case1 => rfl
  | case2 b =>
    by_cases hb : b = 13
    · subst hb; rfl
    · calc utf8Encode (replaceCRLF [b]) = utf8EncodeChar b ++ [] := rfl
        _ = utf8EncodeChar b ++ replaceCRLF [] := rfl
        _ = replaceCRLF (utf8EncodeChar b ++ []) := (replaceCRLF_encodeChar b hb []).symm
        _ = replaceCRLF (utf8Encode [b]) := rfl
  | case3 b c rest hbc ih =>
    obtain ⟨rfl, rfl⟩ := hbc
    calc utf8Encode (replaceCRLF (13 :: 10 :: rest))
        = utf8Encode (10 :: replaceCRLF rest) := by
          rw [replaceCRLF, if_pos ⟨rfl, rfl⟩]
      _ = 10 :: utf8Encode (replaceCRLF rest) := rfl
      _ = 10 :: replaceCRLF (utf8Encode rest) := by rw [ih]
      _ = replaceCRLF (13 :: 10 :: utf8Encode rest) := by
          rw [replaceCRLF, if_pos ⟨rfl, rfl⟩]
      _ = replaceCRLF (utf8Encode (13 :: 10 :: rest)) := rfl
  | case4 b c rest hbc ih =>
    by_cases hb : b = 13
    · subst hb
      have hc : c ≠ 10 := fun h => hbc ⟨rfl, h⟩
      calc utf8Encode (replaceCRLF (13 :: c :: rest))
          = utf8Encode (13 :: replaceCRLF (c :: rest)) := by
            rw [replaceCRLF_cons13 c rest hc]
        _ = 13 :: utf8Encode (replaceCRLF (c :: rest)) := rfl
        _ = 13 :: replaceCRLF (utf8Encode (c :: rest)) := by rw [ih]
        _ = 13 :: replaceCRLF (utf8EncodeChar c ++ utf8Encode rest) := rfl
        _ = replaceCRLF (13 :: (utf8EncodeChar c ++ utf8Encode rest)) :=
            (replaceCRLF_13_encodeChar c hc (utf8Encode rest)).symm
        _ = replaceCRLF (utf8Encode (13 :: c :: rest)) := rfl
    · calc utf8Encode (replaceCRLF (b :: c :: rest))
          = utf8Encode (b :: replaceCRLF (c :: rest)) := by
            rw [replaceCRLF_cons b _ hb]
        _ = utf8EncodeChar b ++ utf8Encode (replaceCRLF (c :: rest)) := rfl
        _ = utf8EncodeChar b ++ replaceCRLF (utf8Encode (c :: rest)) := by rw [ih]
        _ = replaceCRLF (utf8EncodeChar b ++ utf8Encode (c :: rest)) :=
            (replaceCRLF_encodeChar b hb (utf8Encode (c :: rest))).symm
        _ = replaceCRLF (utf8Encode (b :: c :: rest)) := rfl

/-- On UTF-8-decodable content the normalizer's output is exactly the
byte-level CRLF-to-LF rewrite of the input. -/
theorem convert_dos2unix_utf8 (bs cps : List Nat) (hd : utf8Decode bs = some cps) :
    convert_dos2unix_stream (some bs) = some (replaceCRLF bs) := by
  simp only [convert_dos2unix_stream, hd]
  rw [utf8Encode_replaceCRLF, utf8Decode_encode bs cps hd]

/-- On content that is not UTF-8-decodable the normalizer falls back to
latin-1 and re-encodes the normalized text as UTF-8. -/
theorem convert_dos2unix_fallback (bs : List Nat) (hd : utf8Decode bs = none) :
    convert_dos2unix_stream (some bs) = some (utf8Encode (replaceCRLF bs)) := by
  simp [convert_dos2unix_stream, hd, latin1Decode]

/-- When every directory-level operation succeeds, each file entry
contributes exactly one to `uploaded + failed`. -/
theorem upload_counts_entry : ∀ e : Entry, dirsClean e = true →
    (uploadEntry e).uploaded + (uploadEntry e).failed = totalFiles e := by
  intro e
  induction e using Entry.rec
    (motive_2 := fun l => dirsCleanList l = true →
      (uploadList l).uploaded + (uploadList l).failed = totalFilesList l) with
  | file ext s c p t =>
    intro _
    rw [totalFiles]
    simp only [uploadEntry]
    cases hpf : processFile ext s c p with
    | none => rfl
    | some pr =>
      obtain ⟨pl, conv⟩ := pr
      cases t <;> rfl
  | dir err it ch ih =>
    intro hcl
    simp only [dirsClean, Bool.and_eq_true] at hcl
    obtain ⟨⟨hmk, hit⟩, hch⟩ := hcl
    simp only [uploadEntry, hmk, hit, if_true, totalFiles]
    exact ih hch
  | nil => rfl
  | cons e es ihe ihes =>
    rename_i h
    simp only [dirsCleanList, Bool.and_eq_true] at h
    obtain ⟨he, hes⟩ := h
    simp only [uploadList, totalFilesList, UploadResult.add]
    have h1 := ihe he
    have h2 := ihes hes
    omega

/-- A rerun over the same tree after a run with `failed = 0` produces the
same counts: every remote mkdir now raises `"File exists"`, which is
treated as success. -/
theorem upload_rerun_entry : ∀ e : Entry, (uploadEntry e).failed = 0 →
    uploadEntry (rerunEntry e) = uploadEntry e := by
  intro e
  induction e using Entry.rec
    (motive_2 := fun l => (uploadList l).failed = 0 →
      uploadList (rerunList l) = uploadList l) with
  | file ext s c p t =>
    intro _
    rfl
  | dir err it ch ih =>
    intro h
    cases hmk : mkdir_treated_ok err with
    | false => rw [uploadEntry, hmk] at h; simp at h
    | true =>
      cases it with
      | false => rw [uploadEntry, hmk] at h; simp at h
      | true =>
        have hfe : mkdir_treated_ok (some "File exists") = true := by decide
        have hd1 : uploadEntry (Entry.dir err true ch) = uploadList ch := by
          rw [uploadEntry, hmk]; simp
        have hd2 : uploadEntry (Entry.dir (some "File exists") true (rerunList ch)) =
            uploadList (rerunList ch) := by
          rw [uploadEntry, hfe]; simp
        rw [hd1] at h
        simp only [rerunEntry]
        rw [hd2, hd1]
        exact ih h
  | nil => rfl
  | cons e es ihe ihes =>
    rename_i h
    simp only [uploadList, UploadResult.add] at h
    have he : (uploadEntry e).failed = 0 := by omega
    have hes : (uploadList es).failed = 0 := by omega
    simp only [rerunList, uploadList, ihe he, ihes hes]

end LocalToVm

namespace LocalToVm

/-- C1 counterexample: a Text-classified file whose content `[255]` is
decodable (via the latin-1 fallback) is uploaded as `[195, 191]`, which
differs from the CRLF-to-LF rewrite `[255]` of the source in a byte that is
not part of any CRLF pair. -/
theorem text_crlf_only_cex :
    processFile ".txt" (some [255]) (some [255]) (some [255]) = some ([195, 191], true) ∧
    replaceCRLF [255] = [255] ∧ ([195, 191] : List Nat) ≠ [255] := by
  decide

/-- C1 (amended): for a file classified Text, if the content is
UTF-8-decodable the uploaded payload is exactly the source bytes with every
CRLF pair replaced by LF and no other byte changed; if only the latin-1
fallback decodes it, the payload is the UTF-8 re-encoding of the
CRLF-normalized latin-1 text, which can change non-ASCII bytes. -/
theorem text_crlf_only :
    ∀ (suffix : String) (bs cps : List Nat) (putRead : Option (List Nat)),
    is_text_file suffix = true → is_binary_file (some bs) = false →
    (utf8Decode bs = some cps →
      processFile suffix (some bs) (some bs) putRead = some (replaceCRLF bs, true)) ∧
    (utf8Decode bs = none →
      processFile suffix (some bs) (some bs) putRead =
        some (utf8Encode (replaceCRLF bs), true)) := by
  intro suffix bs cps putRead ht hb
  have hsc : should_convert suffix (some bs) = true := by
    simp [should_convert, ht, hb]
  constructor
  · intro hd
    simp [processFile, hsc, convert_dos2unix_utf8 bs cps hd]
  · intro hd
    simp [processFile, hsc, convert_dos2unix_fallback bs hd]

/-- C1 witness: concrete Text file `[13, 10, 65]` is uploaded as `[10, 65]`. -/
theorem text_crlf_only_witness :
    is_text_file ".txt" = true ∧ is_binary_file (some [13, 10, 65]) = false ∧
    utf8Decode [13, 10, 65] = some [13, 10, 65] ∧
    processFile ".txt" (some [13, 10, 65]) (some [13, 10, 65]) none =
      some (replaceCRLF [13, 10, 65], true) :=
  ⟨by decide, by decide, by decide,
    (text_crlf_only ".txt" [13, 10, 65] [13, 10, 65] none (by decide) (by decide)).1
      (by decide)⟩

/-- C2: a file classified Binary — extension not in the allow-list, or a
NUL byte among the first 1024 bytes — is uploaded byte-identical to the
source, with no conversion counted. -/
theorem binary_payload_identical :
    ∀ (suffix : String) (bs : List Nat) (convRead : Option (List Nat)),
    is_text_file suffix = false ∨ (bs.take 1024).contains 0 = true →
    processFile suffix (some bs) convRead (some bs) = some (bs, false) := by
  intro suffix bs convRead h
  have hsc : should_convert suffix (some bs) = false := by
    cases h with
    | inl h => simp [should_convert, h]
    | inr h =>
      have hm : 0 ∈ bs.take 1024 := by simpa using h
      simp [should_convert, is_binary_file, hm]
  simp [processFile, hsc]

/-- C2 witness: a `.bin` file and a `.txt` file with a NUL byte are both
uploaded unchanged. -/
theorem binary_payload_identical_witness :
    (is_text_file ".bin" = false ∨ (([7, 0, 9] : List Nat).take 1024).contains 0 = true) ∧
    processFile ".bin" (some [7, 0, 9]) none (some [7, 0, 9]) = some ([7, 0, 9], false) :=
  ⟨Or.inl (by decide), binary_payload_identical ".bin" [7, 0, 9] none (Or.inl (by decide))⟩

end LocalToVm

namespace LocalToVm

/-- C3 counterexample: a tree whose one subdirectory fails `mkdir` with an
error not containing `"File exists"` yields `uploaded + failed = 1` while it
contains two file entries — the subtree's files are skipped but counted
only as the directory's single failure. -/
theorem upload_counts_cex :
    (uploadEntry (Entry.dir (some "Permission denied") true
        [Entry.file ".txt" (some [65]) (some [65]) (some [65]) true,
         Entry.file ".txt" (some [66]) (some [66]) (some [66]) true])).uploaded +
      (uploadEntry (Entry.dir (some "Permission denied") true
        [Entry.file ".txt" (some [65]) (some [65]) (some [65]) true,
         Entry.file ".txt" (some [66]) (some [66]) (some [66]) true])).failed ≠
    totalFiles (Entry.dir (some "Permission denied") true
        [Entry.file ".txt" (some [65]) (some [65]) (some [65]) true,
         Entry.file ".txt" (some [66]) (some [66]) (some [66]) true]) := by
  decide

/-- C3 (amended): when every remote directory creation is treated as
success and every directory listing succeeds, `uploaded + failed` equals
the number of file entries under the root; and rerunning an upload that
ended with `failed = 0` (every mkdir now raising `"File exists"`) yields
the same counts. -/
theorem upload_counts (e : Entry) :
    (dirsClean e = true →
      (uploadEntry e).uploaded + (uploadEntry e).failed = totalFiles e) ∧
    ((uploadEntry e).failed = 0 → uploadEntry (rerunEntry e) = uploadEntry e) :=
  ⟨upload_counts_entry e, upload_rerun_entry e⟩

/-- C3 witness: a one-file tree with clean directories has
`uploaded + failed = 1` and reruns with identical counts. -/
theorem upload_counts_witness :
    (uploadEntry (Entry.dir none true
        [Entry.file ".txt" (some [65]) (some [65]) (some [65]) true])).uploaded +
      (uploadEntry (Entry.dir none true
        [Entry.file ".txt" (some [65]) (some [65]) (some [65]) true])).failed =
      totalFiles (Entry.dir none true
        [Entry.file ".txt" (some [65]) (some [65]) (some [65]) true]) ∧
    uploadEntry (rerunEntry (Entry.dir none true
        [Entry.file ".txt" (some [65]) (some [65]) (some [65]) true])) =
      uploadEntry (Entry.dir none true
        [Entry.file ".txt" (some [65]) (some [65]) (some [65]) true]) :=
  ⟨(upload_counts (Entry.dir none true
        [Entry.file ".txt" (some [65]) (some [65]) (some [65]) true])).1 (by decide),
   (upload_counts (Entry.dir none true
        [Entry.file ".txt" (some [65]) (some [65]) (some [65]) true])).2 (by decide)⟩

/-- C4 counterexample: an `AuthenticationException` raised while connecting
to the jump host also clears the cached target-host password — the
target-host credential is not left untouched. -/
theorem auth_clear_cex :
    attemptResult .authFail true .ok true = .authFail ∧
    (safe_connect_step ⟨some "jumpSecret", some "targetSecret"⟩ "jumpSecret"
        "targetSecret" .authFail).target_password ≠ some "targetSecret" := by
  decide

/-- C4 (amended): an `AuthFailure` at either host clears BOTH cached
credentials (both are re-prompted on the next attempt), while a
`TransportFailure` — including forwarded-channel and sftp-channel failures —
clears neither cached credential. -/
theorem auth_clears_both :
    ∀ (c : CredCache) (jp tp s : String) (chanOk : Bool) (target : StepOutcome)
      (sftpOk : Bool),
    attemptResult .authFail chanOk target sftpOk = .authFail ∧
    safe_connect_step c jp tp .authFail = ⟨none, none⟩ ∧
    fillPasswords ⟨none, none⟩ jp tp = ⟨some jp, some tp⟩ ∧
    (c.jump_password = some s →
      (safe_connect_step c jp tp .transFail).jump_password = some s) ∧
    (c.target_password = some s →
      (safe_connect_step c jp tp .transFail).target_password = some s) := by
  intro c jp tp s chanOk target sftpOk
  refine ⟨rfl, rfl, rfl, ?_, ?_⟩
  · intro h
    simp [safe_connect_step, fillPasswords, h]
  · intro h
    simp [safe_connect_step, fillPasswords, h]

/-- C4 witness: with both credentials cached, an auth failure clears both,
and a transport failure preserves both. -/
theorem auth_clears_both_witness :
    safe_connect_step ⟨some "a", some "b"⟩ "a" "b" .authFail = ⟨none, none⟩ ∧
    (safe_connect_step ⟨some "a", some "b"⟩ "a" "b" .transFail).jump_password = some "a" ∧
    (safe_connect_step ⟨some "a", some "b"⟩ "a" "b" .transFail).target_password = some "b" :=
  ⟨(auth_clears_both ⟨some "a", some "b"⟩ "a" "b" "a" true .ok true).2.1,
   (auth_clears_both ⟨some "a", some "b"⟩ "a" "b" "a" true .ok true).2.2.2.1 rfl,
   (auth_clears_both ⟨some "a", some "b"⟩ "a" "b" "b" true .ok true).2.2.2.2 rfl⟩

end LocalToVm

namespace LocalToVm

/-- C5 counterexample: when the 1024-byte sniff read fails,
`is_binary_file` returns `false`, so an allow-list file is classified Text
and normalization IS attempted — not classified Binary as claimed. -/
theorem read_failure_binary_cex :
    is_binary_file none = false ∧ should_convert ".txt" none = true := by
  decide

/-- C5 (amended): a file whose 1024-byte sniff read fails is treated as NOT
binary, so a file with an allow-listed extension still takes the
normalization path; the original bytes are uploaded only because the
normalizer's own read also fails and the fallback `sftp.put` succeeds. -/
theorem read_failure_not_binary :
    ∀ (suffix : String) (bs : List Nat), is_text_file suffix = true →
    is_binary_file none = false ∧ should_convert suffix none = true ∧
    processFile suffix none none (some bs) = some (bs, false) := by
  intro suffix bs ht
  have hsc : should_convert suffix none = true := by
    simp [should_convert, ht, is_binary_file]
  refine ⟨rfl, hsc, ?_⟩
  simp [processFile, hsc, convert_dos2unix_stream]

/-- C5 witness: a `.txt` file with failing sniff and normalizer reads whose
`sftp.put` read succeeds uploads the original bytes unconverted. -/
theorem read_failure_not_binary_witness :
    is_text_file ".txt" = true ∧
    processFile ".txt" none none (some [65]) = some ([65], false) :=
  ⟨by decide, (read_failure_not_binary ".txt" [65] (by decide)).2.2⟩

/-- C6 counterexample: when the forwarded-channel step fails, the jump-host
session opened earlier in the attempt is NOT closed before retrying — the
`except` handlers release nothing. -/
theorem partial_release_cex :
    Handle.jump_ssh ∈ openedBefore .openChannel ∧
    Handle.jump_ssh ∉ closedOnFailure .openChannel := by
  decide

/-- C6 (amended): a failed connect attempt leaves the session cache
untouched — it holds all handles together or none both before and after any
attempt, and after `safe_disconnect` — but the partially-opened resources
of the failed attempt are not closed; they are dropped unreleased. -/
theorem connect_failure_cache :
    ∀ (c : SessionCache) (st : ConnectStage), allOrNone c = true →
    cacheAfterAttempt c (some st) = c ∧
    closedOnFailure st = [] ∧
    allOrNone (cacheAfterAttempt c (some st)) = true ∧
    allOrNone (cacheAfterAttempt c none) = true ∧
    allOrNone (safe_disconnect c) = true := by
  intro c st h
  exact ⟨rfl, rfl, h, rfl, rfl⟩

/-- C6 witness: a connected cache attempt-failure at the target-connect
step keeps the cache as is and closes nothing. -/
theorem connect_failure_cache_witness :
    cacheAfterAttempt ⟨false, false, false, false⟩ (some .targetConnect) =
      ⟨false, false, false, false⟩ ∧
    closedOnFailure .targetConnect = [] ∧
    allOrNone (cacheAfterAttempt ⟨false, false, false, false⟩ (some .targetConnect)) = true :=
  ⟨(connect_failure_cache ⟨false, false, false, false⟩ .targetConnect (by decide)).1,
   (connect_failure_cache ⟨false, false, false, false⟩ .targetConnect (by decide)).2.1,
   (connect_failure_cache ⟨false, false, false, false⟩ .targetConnect (by decide)).2.2.1⟩

/-- C7 counterexample: the backoff after a transport failure is 2 seconds,
not the claimed 5 — both `except` handlers call `time.sleep(2)`. -/
theorem transport_backoff_cex :
    retryDelay .transFail ≠ some 5 ∧ retryDelay .transFail = some 2 := by
  decide

/-- C7 (amended): after every failed connect attempt — `AuthFailure` or
`TransportFailure` alike — `safe_connect` waits a fixed 2-second backoff
and retries; no wait follows a successful attempt. -/
theorem retry_backoff :
    retryDelay .authFail = some 2 ∧ retryDelay .transFail = some 2 ∧
    retryDelay .ok = none := by
  decide

/-- C8: remote directory creation is idempotent at every level: a `mkdir`
error containing `"File exists"` is treated as success both at the
top-level target directory (`perform_upload` continues) and for a
subdirectory (`failed` is not incremented and children are processed). -/
theorem mkdir_idempotent :
    ∀ (msg : String) (children : List Entry), strContains "File exists" msg = true →
    mkdir_treated_ok (some msg) = true ∧
    uploadEntry (Entry.dir (some msg) true children) = uploadList children := by
  intro msg children h
  have hmk : mkdir_treated_ok (some msg) = true := by
    simp [mkdir_treated_ok, h]
  refine ⟨hmk, ?_⟩
  rw [uploadEntry, hmk]
  simp

/-- C8 witness: a paramiko-style `"File exists"` error creates no failure
and the directory's children (none here) are summed as usual. -/
theorem mkdir_idempotent_witness :
    mkdir_treated_ok (some "mkdir failed: File exists on remote") = true ∧
    uploadEntry (Entry.dir (some "mkdir failed: File exists on remote") true []) =
      uploadList [] :=
  mkdir_idempotent "mkdir failed: File exists on remote" [] (by decide)

/-- C9: a Text-classified file on which the normalizer signals
`DecodeFailure` (returns `None`) is uploaded with its original bytes
unmodified; the entry counts as uploaded but not as converted. -/
theorem decode_failure_fallback :
    ∀ (suffix : String) (sniffRead : Option (List Nat)) (bs : List Nat),
    should_convert suffix sniffRead = true →
    processFile suffix sniffRead none (some bs) = some (bs, false) ∧
    uploadEntry (Entry.file suffix sniffRead none (some bs) true) =
      ⟨1, 0, 0⟩ := by
  intro suffix sniffRead bs h
  have hp : processFile suffix sniffRead none (some bs) = some (bs, false) := by
    simp [processFile, h, convert_dos2unix_stream]
  refine ⟨hp, ?_⟩
  simp [uploadEntry, hp]

/-- C9 witness: a `.txt` file whose normalizer read fails uploads its
original byte `[65]` with counts `(1, 0, 0)`. -/
theorem decode_failure_fallback_witness :
    should_convert ".txt" (some [65]) = true ∧
    processFile ".txt" (some [65]) none (some [65]) = some ([65], false) ∧
    uploadEntry (Entry.file ".txt" (some [65]) none (some [65]) true) = ⟨1, 0, 0⟩ :=
  ⟨by decide, (decode_failure_fallback ".txt" (some [65]) [65] (by decide)).1,
   (decode_failure_fallback ".txt" (some [65]) [65] (by decide)).2⟩

/-- C10: the normalizer is total — it returns `None` exactly when the file
read failed, because the latin-1 fallback decodes every byte sequence; an
undecodable content can never cause the `DecodeFailure` outcome. -/
theorem normalizer_total :
    (∀ read : Option (List Nat),
      (convert_dos2unix_stream read = none ↔ read = none)) ∧
    (∀ bs : List Nat, ∃ out, convert_dos2unix_stream (some bs) = some out) := by
  constructor
  · intro read
    cases read with
    | none => simp [convert_dos2unix_stream]
    | some content =>
      cases hdec : utf8Decode content with
      | none => simp [convert_dos2unix_stream, hdec]
      | some cps => simp [convert_dos2unix_stream, hdec]
  · intro bs
    cases hdec : utf8Decode bs with
    | none =>
      exact ⟨utf8Encode (replaceCRLF (latin1Decode bs)),
        by simp [convert_dos2unix_stream, hdec]⟩
    | some cps =>
      exact ⟨utf8Encode (replaceCRLF cps), by simp [convert_dos2unix_stream, hdec]⟩

end LocalToVm
